import Mathlib

/-!
Verification of the sales-data transformation pipeline.

The pipeline builds a fixed ten-row sales table, cleans it (null-fill of
quantity, removal of cancelled orders), derives two columns (total_price,
customer_full_name) and aggregates it (sales by region, order counts by
region and status).  Machine doubles are modelled by rationals: every
numeric literal in the data has at most two decimal digits, quantities are
small integers, and all sums stay far below any precision boundary, so the
rational semantics coincides with the double semantics on this program.
Nullable columns are modelled with Option; the dataframe is a list of rows.
-/

/-- A row of the raw sales table, following sales_schema: quantity is the
only column that is null in the data, so it is the only Option field. -/
structure Row where
  order_id : String
  customer_name : String
  item : String
  quantity : Option Int
  price_per_unit : ℚ
  region : String
  status : String
  deriving DecidableEq

/-- A row after the total_price column is appended (withColumn total_price).
The column is nullable in Spark: it is null when quantity is null. -/
structure TRow where
  order_id : String
  customer_name : String
  item : String
  quantity : Option Int
  price_per_unit : ℚ
  region : String
  status : String
  total_price : Option ℚ
  deriving DecidableEq

/-- A row after the customer_full_name column is appended. -/
structure DRow where
  order_id : String
  customer_name : String
  item : String
  quantity : Option Int
  price_per_unit : ℚ
  region : String
  status : String
  total_price : Option ℚ
  customer_full_name : String
  deriving DecidableEq

/-- The ten literal rows of raw_sales_data, in source order. -/
def raw_sales_data : List Row :=
  [ { order_id := "ORD001", customer_name := "Alice Smith", item := "Laptop",
      quantity := some 1, price_per_unit := 2401 / 2, region := "North", status := "Completed" },
    { order_id := "ORD002", customer_name := "Bob Johnson", item := "Mouse",
      quantity := some 2, price_per_unit := 25, region := "South", status := "Pending" },
    { order_id := "ORD003", customer_name := "Charlie Brown", item := "Keyboard",
      quantity := some 1, price_per_unit := 301 / 4, region := "East", status := "Completed" },
    { order_id := "ORD004", customer_name := "Alice Smith", item := "Monitor",
      quantity := some 1, price_per_unit := 300, region := "North", status := "Pending" },
    { order_id := "ORD005", customer_name := "Eve Davis", item := "Laptop Bag",
      quantity := some 1, price_per_unit := 45, region := "West", status := "Cancelled" },
    { order_id := "ORD006", customer_name := "Bob Johnson", item := "Headphones",
      quantity := some 3, price_per_unit := 50, region := "South", status := "Completed" },
    { order_id := "ORD007", customer_name := "Grace Lee", item := "Webcam",
      quantity := some 1, price_per_unit := 60, region := "East", status := "Completed" },
    { order_id := "ORD008", customer_name := "Frank White", item := "Mouse",
      quantity := none, price_per_unit := 25, region := "North", status := "Completed" },
    { order_id := "ORD009", customer_name := "Charlie Brown", item := "External SSD",
      quantity := some 1, price_per_unit := 9999 / 100, region := "East", status := "Pending" },
    { order_id := "ORD010", customer_name := "Alice Smith", item := "Webcam",
      quantity := some 1, price_per_unit := 60, region := "North", status := "Completed" } ]

/-- Rounding to two decimal places, as spark_round with scale 2: scale by
100, round to the nearest integer with halves going up (HALF_UP, the policy
of the round function used by the source; the sample data never hits a
half, so HALF_UP and HALF_EVEN agree on it), scale back. -/
def round2 (x : ℚ) : ℚ := ((⌊x * 100 + 1 / 2⌋ : ℤ) : ℚ) / 100

/-- Rounding lifted to a nullable column: round of null is null. -/
def round2Opt (x : Option ℚ) : Option ℚ := x.map round2

/-- Spark aggregate sum over a nullable column: nulls are skipped, and the
sum of an all-null or empty group is null. -/
def sparkSum (xs : List (Option ℚ)) : Option ℚ :=
  match xs.filterMap id with
  | [] => none
  | v :: vs => some (v :: vs).sum

/-- na.fill(0, subset=[quantity]) on one row: a null quantity becomes 0,
everything else is untouched. -/
def fillRow (r : Row) : Row := { r with quantity := some (r.quantity.getD 0) }

/-- df_cleaned_quantity: null quantities replaced by 0, rowwise. -/
def fillQuantity (df : List Row) : List Row := df.map fillRow

/-- df_filtered_orders: keep the rows whose status column differs from the
exact string Cancelled. -/
def filterCancelled (df : List Row) : List Row :=
  df.filter (fun r => r.status != "Cancelled")

/-- withColumn total_price = round(quantity * price_per_unit, 2): the cast
of the nullable quantity to double keeps null, the product with a null is
null and rounding a null is null, so total_price is null exactly when
quantity is. -/
def withTotalPrice (df : List Row) : List TRow :=
  df.map (fun r =>
    { order_id := r.order_id, customer_name := r.customer_name, item := r.item,
      quantity := r.quantity, price_per_unit := r.price_per_unit,
      region := r.region, status := r.status,
      total_price := r.quantity.map (fun q => round2 ((q : ℚ) * r.price_per_unit)) })

/-- withColumn customer_full_name = concat(customer_name, lit("")). -/
def withCustomerFullName (df : List TRow) : List DRow :=
  df.map (fun r =>
    { order_id := r.order_id, customer_name := r.customer_name, item := r.item,
      quantity := r.quantity, price_per_unit := r.price_per_unit,
      region := r.region, status := r.status, total_price := r.total_price,
      customer_full_name := r.customer_name ++ "" })

/-- Ascending lexicographic comparison on (region, status) keys, as used by
orderBy(region, status). -/
def keyLe (a b : String × String) : Prop :=
  a.1 < b.1 ∨ (a.1 = b.1 ∧ a.2 ≤ b.2)

instance : DecidableRel keyLe := fun a b => by
  unfold keyLe; infer_instance
instance : IsTrans (String × String) keyLe :=
  ⟨fun a b c hab hbc => by
    rcases hab with h1 | ⟨h1, h2⟩ <;> rcases hbc with h3 | ⟨h3, h4⟩
    · exact Or.inl (lt_trans h1 h3)
    · exact Or.inl (h3 ▸ h1)
    · exact Or.inl (h1.symm ▸ h3)
    · exact Or.inr ⟨h1.trans h3, le_trans h2 h4⟩⟩

instance : IsTotal (String × String) keyLe :=
  ⟨fun a b => by
    rcases lt_trichotomy a.1 b.1 with h | h | h
    · exact Or.inl (Or.inl h)
    · rcases le_total a.2 b.2 with h2 | h2
      · exact Or.inl (Or.inr ⟨h, h2⟩)
      · exact Or.inr (Or.inr ⟨h.symm, h2⟩)
    · exact Or.inr (Or.inl h)⟩

/-- df_sales_by_region: group the derived rows by region, sum total_price
inside each group, round the sum to 2 decimals, one output row per group,
ordered ascending by region. -/
def salesByRegion (df : List DRow) : List (String × Option ℚ) :=
  (List.insertionSort (· ≤ ·) ((df.map (fun r => r.region)).dedup)).map
    (fun g =>
      (g, round2Opt (sparkSum ((df.filter (fun r => r.region == g)).map
        (fun r => r.total_price)))))

/-- df_orders_by_status_region: group the derived rows by (region, status),
count the rows of each group (order_id is never null, so count(order_id)
is the group size), one output row per group, ordered ascending by region
then status. -/
def ordersByRegionStatus (df : List DRow) : List (String × String × Nat) :=
  (List.insertionSort keyLe ((df.map (fun r => (r.region, r.status))).dedup)).map
    (fun k =>
      (k.1, k.2, (df.filter (fun r => r.region == k.1 && r.status == k.2)).length))

/-- The cleaned table of the program. -/
def df_cleaned_quantity : List Row := fillQuantity raw_sales_data

/-- The filtered table of the program. -/
def df_filtered_orders : List Row := filterCancelled df_cleaned_quantity

/-- The table with the derived total_price column. -/
def df_with_total_price : List TRow := withTotalPrice df_filtered_orders

/-- The fully derived table of the program. -/
def df_with_customer_full_name : List DRow := withCustomerFullName df_with_total_price

/-- The by-region aggregate of the program. -/
def df_sales_by_region : List (String × Option ℚ) := salesByRegion df_with_customer_full_name

/-- The by-region-and-status aggregate of the program. -/
def df_orders_by_status_region : List (String × String × Nat) :=
  ordersByRegionStatus df_with_customer_full_name

theorem length_filter_not_cancelled (df : List Row) :
    (df.filter (fun r => r.status != "Cancelled")).length
      = df.length - (df.filter (fun r => r.status == "Cancelled")).length := by
  induction df with
  | nil => rfl
  | cons r t ih =>
    have hle := List.length_filter_le (fun x : Row => x.status == "Cancelled") t
    by_cases h : r.status == "Cancelled"
    · have h2 : (r.status != "Cancelled") = false := by simp [bne, h]
      simp [List.filter_cons, h2, h, ih]
    · have h2 : (r.status != "Cancelled") = true := by simp [bne, h]
      simp [List.filter_cons, h2, h, ih]
      omega

/-- C2: the cleaning filter keeps exactly the rows whose status is not the
exact string Cancelled, keeps them unchanged in their original relative
order (the output is a sublist of the input), and the surviving row count
is the input count minus the number of Cancelled rows. -/
theorem filterCancelled_spec (df : List Row) :
    (∀ r ∈ filterCancelled df, r.status ≠ "Cancelled") ∧
    (filterCancelled df).Sublist df ∧
    (∀ r ∈ df, r.status ≠ "Cancelled" → r ∈ filterCancelled df) ∧
    (filterCancelled df).length
      = df.length - (df.filter (fun r => r.status == "Cancelled")).length := by
  refine ⟨?_, List.filter_sublist df, ?_, length_filter_not_cancelled df⟩
  · intro r hr
    simp only [filterCancelled, List.mem_filter, bne_iff_ne, ne_eq] at hr
    exact hr.2
  · intro r hr hs
    simp only [filterCancelled, List.mem_filter, bne_iff_ne, ne_eq]
    exact ⟨hr, hs⟩

/-- Witness for C2 at the concrete input: the cancelled order ORD005 is in
the raw table and not in the filtered table, and 9 of the 10 rows survive. -/
theorem filterCancelled_spec_witness :
    (filterCancelled raw_sales_data).length
      = raw_sales_data.length
        - (raw_sales_data.filter (fun r => r.status == "Cancelled")).length :=
  (filterCancelled_spec raw_sales_data).2.2.2

/-- C3: the null-fill keeps the row count, makes every quantity non-null,
rewrites each row to the same row with quantity replaced by its value or 0
(no other field is touched), and leaves a row whose quantity is already
non-null entirely unchanged. -/
theorem fillQuantity_spec (df : List Row) :
    (fillQuantity df).length = df.length ∧
    (∀ r ∈ fillQuantity df, r.quantity.isSome) ∧
    (∀ i : Nat, (fillQuantity df)[i]? = df[i]?.map (fun r =>
      { order_id := r.order_id, customer_name := r.customer_name, item := r.item,
        quantity := some (r.quantity.getD 0), price_per_unit := r.price_per_unit,
        region := r.region, status := r.status })) ∧
    (∀ i : Nat, ∀ r : Row, df[i]? = some r → r.quantity.isSome →
      (fillQuantity df)[i]? = some r) := by
  refine ⟨by simp [fillQuantity], ?_, ?_, ?_⟩
  · intro r hr
    simp only [fillQuantity, List.mem_map] at hr
    obtain ⟨s, _, rfl⟩ := hr
    simp [fillRow]
  · intro i
    simp only [fillQuantity, List.getElem?_map]
    cases df[i]? <;> rfl
  · intro i r hdf hq
    have h3 : (fillQuantity df)[i]? = df[i]?.map fillRow := by
      simp [fillQuantity, List.getElem?_map]
    rw [h3, hdf]
    obtain ⟨q, hq2⟩ := Option.isSome_iff_exists.mp hq
    cases r
    simp_all [fillRow]

/-- Witness for C3 at the concrete input: row 7 (ORD008) has its null
quantity replaced by 0 while every other field is kept. -/
theorem fillQuantity_spec_witness :
    (fillQuantity raw_sales_data)[7]? = some
      { order_id := "ORD008", customer_name := "Frank White", item := "Mouse",
        quantity := some 0, price_per_unit := 25, region := "North",
        status := "Completed" } := by
  have h := (fillQuantity_spec raw_sales_data).2.2.1 7
  rw [h]
  rfl

/-- C7: on any raw table, filtering the cancelled rows first and null
filling second gives the same table as the contract order of null fill
first and filter second. -/
theorem cleaning_commutes (df : List Row) :
    fillQuantity (filterCancelled df) = filterCancelled (fillQuantity df) := by
  induction df with
  | nil => rfl
  | cons r t ih =>
    simp only [fillQuantity, filterCancelled, List.map_cons, List.filter_cons] at *
    have hst : (fillRow r).status = r.status := rfl
    by_cases h : (r.status != "Cancelled")
    · simp [hst, h, ih]
    · have h2 : (r.status != "Cancelled") = false := by
        cases hb : (r.status != "Cancelled") with
        | false => rfl
        | true => exact absurd hb h
      simp [hst, h2, ih]

/-- C1: on any cleaned table whose quantities are all non-null, every row of
the derived table carries total_price = round(quantity * price_per_unit, 2)
computed from its own quantity and unit price, and total_price is never
null. -/
theorem total_price_spec (df : List Row) (hq : ∀ r ∈ df, r.quantity.isSome)
    (s : DRow) (hs : s ∈ withCustomerFullName (withTotalPrice df)) :
    s.total_price = s.quantity.map (fun q => round2 ((q : ℚ) * s.price_per_unit)) ∧
    s.total_price.isSome := by
  simp only [withCustomerFullName, withTotalPrice, List.map_map, List.mem_map,
    Function.comp] at hs
  obtain ⟨r, hr, rfl⟩ := hs
  refine ⟨rfl, ?_⟩
  obtain ⟨q, hq2⟩ := Option.isSome_iff_exists.mp (hq r hr)
  simp [hq2]

/-- Witness for C1 at the concrete input: the first derived row has a
non-null total_price. -/
theorem total_price_spec_witness :
    (df_with_customer_full_name.get ⟨0, by decide⟩).total_price.isSome :=
  (total_price_spec df_filtered_orders (by decide) _
    (List.get_mem df_with_customer_full_name 0 (by decide))).2

/-- C8: every row of the table with the appended customer_full_name column
carries its customer_name verbatim in that column. -/
theorem customer_full_name_spec (df : List TRow) (s : DRow)
    (hs : s ∈ withCustomerFullName df) :
    s.customer_full_name = s.customer_name := by
  simp only [withCustomerFullName, List.mem_map] at hs
  obtain ⟨r, _, rfl⟩ := hs
  exact String.append_empty r.customer_name

/-- Witness for C8 at the concrete input, on the first derived row. -/
theorem customer_full_name_spec_witness :
    (df_with_customer_full_name.get ⟨0, by decide⟩).customer_full_name
      = (df_with_customer_full_name.get ⟨0, by decide⟩).customer_name :=
  customer_full_name_spec df_with_total_price _
    (List.get_mem df_with_customer_full_name 0 (by decide))

/-- C10: the derivation stage only appends the two new columns: it keeps the
row count and, position by position, every pre-existing column of every
row of the cleaned table it is given. -/
theorem derivation_frame_spec (df : List Row) :
    (withCustomerFullName (withTotalPrice df)).length = df.length ∧
    ∀ i : Nat,
      (withCustomerFullName (withTotalPrice df))[i]?.map (fun s =>
        (s.order_id, s.customer_name, s.item, s.quantity, s.price_per_unit,
         s.region, s.status))
      = df[i]?.map (fun r =>
        (r.order_id, r.customer_name, r.item, r.quantity, r.price_per_unit,
         r.region, r.status)) := by
  constructor
  · simp [withCustomerFullName, withTotalPrice]
  · intro i
    simp only [withCustomerFullName, withTotalPrice, List.map_map, List.getElem?_map]
    cases df[i]? <;> rfl

/-- Witness for C10 at the concrete input: the derived table keeps the 9
rows of the cleaned table. -/
theorem derivation_frame_spec_witness :
    (withCustomerFullName (withTotalPrice df_filtered_orders)).length
      = df_filtered_orders.length :=
  (derivation_frame_spec df_filtered_orders).1


/-- C4: the by-region aggregate of any derived table has exactly one output
row per distinct region occurring in it (no duplicate keys, no key without
a row, no empty group), its rows are sorted strictly ascending by region
name, and the value of each row is the 2-decimal rounding of the sum of
total_price over the rows of its region. -/
theorem salesByRegion_spec (df : List DRow) :
    ((salesByRegion df).map Prod.fst).Nodup ∧
    List.Sorted (· < ·) ((salesByRegion df).map Prod.fst) ∧
    (∀ g : String,
      g ∈ (salesByRegion df).map Prod.fst ↔ g ∈ df.map (fun r => r.region)) ∧
    (∀ p ∈ salesByRegion df,
      p.2 = round2Opt (sparkSum ((df.filter (fun r => r.region == p.1)).map
        (fun r => r.total_price)))) := by
  have hkeys : (salesByRegion df).map Prod.fst
      = List.insertionSort (· ≤ ·) ((df.map (fun r => r.region)).dedup) := by
    rw [salesByRegion, List.map_map]
    have hid : (Prod.fst ∘ fun g : String =>
        (g, round2Opt (sparkSum ((df.filter (fun r => r.region == g)).map
          (fun r => r.total_price))))) = id := rfl
    rw [hid, List.map_id]
  have hperm : (List.insertionSort (α := String) (· ≤ ·)
        ((df.map (fun r => r.region)).dedup)).Perm
      ((df.map (fun r => r.region)).dedup) :=
    List.perm_insertionSort _ _
  have hnodup : ((salesByRegion df).map Prod.fst).Nodup := by
    rw [hkeys]
    exact hperm.nodup_iff.mpr (List.nodup_dedup _)
  refine ⟨hnodup, ?_, ?_, ?_⟩
  · have hs : List.Sorted (· ≤ ·)
        (List.insertionSort (· ≤ ·) ((df.map (fun r => r.region)).dedup)) :=
      List.sorted_insertionSort _ _
    rw [hkeys]
    exact hs.lt_of_le (hkeys ▸ hnodup)
  · intro g
    rw [hkeys, hperm.mem_iff, List.mem_dedup]
  · intro p hp
    simp only [salesByRegion, List.mem_map] at hp
    obtain ⟨g, _, rfl⟩ := hp
    rfl

/-- Witness for C4 at the concrete input: North is a key of the by-region
aggregate because North occurs as a region of the derived table. -/
theorem salesByRegion_spec_witness :
    "North" ∈ (salesByRegion df_with_customer_full_name).map Prod.fst :=
  ((salesByRegion_spec df_with_customer_full_name).2.2.1 "North").mpr (by decide)

/-- C5: in the by-region-and-status aggregate of any derived table, the
per-group order counts over all output rows add up to the row count of the
table, because the groups partition its rows. -/
theorem ordersByRegionStatus_sum (df : List DRow) :
    ((ordersByRegionStatus df).map (fun p => p.2.2)).sum = df.length := by
  have h1 : (ordersByRegionStatus df).map (fun p => p.2.2)
      = (List.insertionSort keyLe ((df.map (fun r => (r.region, r.status))).dedup)).map
          (fun k => (df.filter (fun r => r.region == k.1 && r.status == k.2)).length) := by
    simp [ordersByRegionStatus, List.map_map]
  have hperm := (List.perm_insertionSort keyLe
      ((df.map (fun r => (r.region, r.status))).dedup)).map
      (fun k => (df.filter (fun r => r.region == k.1 && r.status == k.2)).length)
  rw [h1, hperm.sum_eq]
  have hmm := List.sum_map_count_dedup_eq_length (df.map (fun r => (r.region, r.status)))
  have hlen : df.length = (df.map (fun r => (r.region, r.status))).length := by simp
  rw [hlen, ← hmm]
  apply congrArg
  apply List.map_congr_left
  intro k _
  refine Eq.trans ?_
    (@List.count_eq_countP (String × String) instBEqOfDecidableEq k
      (df.map (fun r => (r.region, r.status)))).symm
  rw [List.countP_map, ← List.countP_eq_length_filter]
  apply List.countP_congr
  intro r _
  obtain ⟨k1, k2⟩ := k
  constructor
  · intro hA
    have hA2 : r.region = k1 ∧ r.status = k2 := by simpa using hA
    exact decide_eq_true (show (r.region, r.status) = (k1, k2) by rw [hA2.1, hA2.2])
  · intro hb
    have hp : (r.region, r.status) = (k1, k2) := of_decide_eq_true hb
    have e1 : r.region = k1 := congrArg Prod.fst hp
    have e2 : r.status = k2 := congrArg Prod.snd hp
    rw [e1, e2]
    simp

theorem filter_unique_key {β : Type} (a : String) (l : List (String × β))
    (hnd : (l.map Prod.fst).Nodup) (hmem : a ∈ l.map Prod.fst) :
    ∃ b, l.filter (fun p => p.1 == a) = [(a, b)] ∧ (a, b) ∈ l := by
  induction l with
  | nil => simp at hmem
  | cons p t ih =>
    obtain ⟨p1, p2⟩ := p
    simp only [List.map_cons, List.nodup_cons, List.mem_map] at hnd
    simp only [List.map_cons, List.mem_cons, List.mem_map] at hmem
    by_cases h : p1 = a
    · subst h
      refine ⟨p2, ?_, List.mem_cons_self _ _⟩
      rw [List.filter_cons_of_pos (by simp)]
      have ht : t.filter (fun p => p.1 == p1) = [] := by
        rw [List.filter_eq_nil_iff]
        intro q hq
        simp only [beq_iff_eq]
        intro hq1
        exact hnd.1 ⟨q, hq, hq1⟩
      rw [ht]
    · have hm2 : a ∈ t.map Prod.fst := by
        rcases hmem with h1 | h1
        · exact absurd h1.symm h
        · exact List.mem_map.mpr h1
      obtain ⟨b, hb1, hb2⟩ := ih hnd.2 hm2
      refine ⟨b, ?_, List.mem_cons_of_mem _ hb2⟩
      rw [List.filter_cons_of_neg (by simp [h]), hb1]

/-- C9: on the fixed ten-row input, the by-region aggregate row for North
carries the total 3121/2, which is 1560.50, and the surviving North rows of
the derived table are ORD001 with total_price 2401/2 = 1200.50, ORD004 with
300.00, ORD008 with 0.00 (its null quantity was filled with 0) and ORD010
with 60.00. -/
theorem north_aggregate :
    df_sales_by_region.filter (fun p => p.1 == "North")
      = [("North", some ((3121 : ℚ) / 2))] ∧
    (df_with_customer_full_name.filter (fun r => r.region == "North")).map
        (fun r => (r.order_id, r.total_price))
      = [("ORD001", some ((2401 : ℚ) / 2)), ("ORD004", some 300),
         ("ORD008", some 0), ("ORD010", some 60)] := by
  constructor
  · have hspec := salesByRegion_spec df_with_customer_full_name
    have hmem : "North" ∈ (salesByRegion df_with_customer_full_name).map Prod.fst :=
      (hspec.2.2.1 "North").mpr (by decide)
    obtain ⟨b, hb1, hb2⟩ :=
      filter_unique_key "North" (salesByRegion df_with_customer_full_name) hspec.1 hmem
    have hval : b = round2Opt (sparkSum ((df_with_customer_full_name.filter
        (fun r => r.region == "North")).map (fun r => r.total_price))) :=
      hspec.2.2.2 ("North", b) hb2
    have hb : b = some ((3121 : ℚ) / 2) := by
      rw [hval]
      simp [df_with_customer_full_name, df_with_total_price, df_filtered_orders,
        df_cleaned_quantity, raw_sales_data, fillQuantity, fillRow, filterCancelled,
        withTotalPrice, withCustomerFullName, round2Opt, sparkSum]
      norm_num [round2]
    rw [← hb]
    exact hb1
  · simp [df_with_customer_full_name, df_with_total_price, df_filtered_orders,
      df_cleaned_quantity, raw_sales_data, fillQuantity, fillRow, filterCancelled,
      withTotalPrice, withCustomerFullName]
    norm_num [round2]

/-- C6: on the program tables, the regional totals of the by-region
aggregate add up exactly to the sum of total_price over the whole derived
table (both equal 1995.74), so the two sides agree within any 2-decimal
rounding tolerance. -/
theorem regional_totals_match :
    ((df_sales_by_region.map (fun p => p.2)).filterMap id).sum
      = ((df_with_customer_full_name.map (fun r => r.total_price)).filterMap id).sum := by
  have hperm : (salesByRegion df_with_customer_full_name).Perm
      (((df_with_customer_full_name.map (fun r => r.region)).dedup).map
        (fun g => (g, round2Opt (sparkSum ((df_with_customer_full_name.filter
          (fun r => r.region == g)).map (fun r => r.total_price)))))) :=
    (List.perm_insertionSort _ _).map _
  have hsum := ((hperm.map (fun p => p.2)).filterMap id).sum_eq
  have he : df_sales_by_region = salesByRegion df_with_customer_full_name := rfl
  rw [he, hsum]
  have hd : (df_with_customer_full_name.map (fun r => r.region)).dedup
      = ["South", "East", "North"] := by decide
  rw [hd]
  simp [df_with_customer_full_name, df_with_total_price, df_filtered_orders,
    df_cleaned_quantity, raw_sales_data, fillQuantity, fillRow, filterCancelled,
    withTotalPrice, withCustomerFullName, round2Opt, sparkSum]
  norm_num [round2]
